import Mathlib

/-!
Verification development for the ASCII roguelike (two near-identical source
variants: a curses terminal version and a PyQt GUI version).

Shallow embedding conventions:
* Python machine integers are unbounded; coordinates and combat statistics are
  modelled as `Int`.  The player's `level`, `xp` and `next_xp` are modelled as
  `Nat`: in the program they are initialised to non-negative values and only
  ever increased, or decreased under a guard that keeps them non-negative.
* The random number generator is modelled as an oracle stream `Rng = Nat → Nat`
  of draws; `random.randint(a, b)` maps the next draw `k` into `[a, b]` as
  `a + k % (b - a + 1)`, `random.choice(bag)` picks index `k % bag.length`, and
  the Bernoulli draw `random.random() < 0.5` is modelled by the parity of the
  next draw.  Every concrete outcome sequence of the real generator is
  realisable by some stream, and every stream describes a possible run.
* The grid is `List (List Char)` indexed `grid[y][x]`; all accesses in the
  program are guarded by bounds checks, so the out-of-range default of the
  accessor is never observable.
* Python `//` (floor division) is `Int.fdiv`; `%` on floats for the facing
  angle is floor-style modulus.
* The facing angle (radians) only ever takes values that are exact rational
  multiples of pi (atan2 on the 8 unit directions, plus or minus multiples of
  15 degrees, mod 2 pi), so it is modelled exactly as a rational number in
  units of pi; float rounding is abstracted away.
* Comparisons of `math.hypot` distances against the constants 1, 1.5, 2, a
  monster's integer range and preferred distance are modelled by the exactly
  equivalent comparisons of squared integer distances (the thresholds and
  operands are such that correctly-rounded float sqrt preserves each of these
  comparisons: the squared forms 2.25 -> 2 and 4, 1, range^2, prefer^2 are
  exact).
* Unbounded `while` loops (the curses variant's spawn placement loop, the
  Bresenham walk, the XP level-up loop) are embedded with an explicit bound
  that provably dominates the number of iterations the source can perform, as
  documented at each definition.
* The two variants differ only in their `LOG_MAX` constant (160 in the Qt
  variant, 120 in the curses variant); functions that append to the message
  log take that constant as an explicit `cap` argument.
-/

-- ----------------------------------------------------------------------
-- Config constants (identical in both variants)
-- ----------------------------------------------------------------------

def MAP_W : Int := 60

def MAP_H : Int := 28

def FOV_RADIUS : Int := 8

def ROOM_MIN : Int := 4

def ROOM_MAX : Int := 9

def MAX_ROOMS : Nat := 12

def LOG_MAX_QT : Nat := 160

def LOG_MAX_CURSES : Nat := 120

def WALL : Char := '#'

def FLOOR : Char := '.'

-- ----------------------------------------------------------------------
-- RNG oracle stream
-- ----------------------------------------------------------------------

/-- Oracle stream of raw random draws; `r 0` is the next draw. -/
def Rng : Type := Nat → Nat

/-- Drop the first `n` draws. -/
def Rng.drop (r : Rng) (n : Nat) : Rng := fun i => r (i + n)

/-- `random.randint(a, b)`: map the next draw into `[a, b]`. -/
def rint (r : Rng) (a b : Int) : Int × Rng :=
  (a + ((r 0 % (b - a + 1).toNat : Nat) : Int), Rng.drop r 1)

/-- `roll(n, s)`: sum of `n` draws of `randint(1, s)`. -/
def roll (r : Rng) : Nat → Int → Int × Rng
  | 0, _ => (0, r)
  | n + 1, s =>
    let d := rint r 1 s
    let rest := roll d.2 n s
    (d.1 + rest.1, rest.2)

/-- `random.choice(bag)` for a nonempty list: pick index `k % bag.length`. -/
def rchoice (r : Rng) (bag : List String) : String × Rng :=
  (bag.getD (r 0 % bag.length) "goblin", Rng.drop r 1)

/-- `random.random() < 0.5` modelled by the parity of the next draw. -/
def rcoin (r : Rng) : Bool × Rng :=
  (r 0 % 2 == 0, Rng.drop r 1)

-- ----------------------------------------------------------------------
-- Grid
-- ----------------------------------------------------------------------

abbrev Grid : Type := List (List Char)

/-- `grid[y][x]`; the default `'#'` is only produced out of range, and every
access in the embedded program is guarded by a bounds check. -/
def cellAt (g : Grid) (x y : Int) : Char :=
  (g.getD y.toNat []).getD x.toNat '#'

/-- `grid[y][x] = c` (all writes in the program are in range). -/
def setCell (g : Grid) (x y : Int) (c : Char) : Grid :=
  g.set y.toNat ((g.getD y.toNat []).set x.toNat c)

/-- `in_bounds(x, y)` from the source. -/
def in_bounds (x y : Int) : Prop :=
  0 ≤ x ∧ x < MAP_W ∧ 0 ≤ y ∧ y < MAP_H

instance (x y : Int) : Decidable (in_bounds x y) := by
  unfold in_bounds; infer_instance

/-- Python `range(a, b)` over integers. -/
def intRange (a b : Int) : List Int :=
  (List.range (b - a).toNat).map (fun i : Nat => a + (i : Int))

-- ----------------------------------------------------------------------
-- Bresenham line, LOS, FOV
-- ----------------------------------------------------------------------

/-- Body of the `bresenham_line` generator.  The source loop is unbounded; the
explicit bound `fuel = |x1-x0| + |y1-y0|` dominates its iteration count, since
every iteration moves `x` and/or `y` one cell toward the target and the walk
stops on arrival. -/
def bresAux (x1 y1 sx sy dx dy : Int) :
    Nat → Int → Int → Int → List (Int × Int)
  | fuel, x, y, err =>
    (x, y) ::
      (if x = x1 ∧ y = y1 then []
       else
         match fuel with
         | 0 => []
         | fuel + 1 =>
           let e2 := 2 * err
           let err1 := if e2 > -dy then err - dy else err
           let x2 := if e2 > -dy then x + sx else x
           let err2 := if e2 < dx then err1 + dx else err1
           let y2 := if e2 < dx then y + sy else y
           bresAux x1 y1 sx sy dx dy fuel x2 y2 err2)

/-- `bresenham_line(x0, y0, x1, y1)` as the list of yielded cells. -/
def bresenham_line (x0 y0 x1 y1 : Int) : List (Int × Int) :=
  let dx := |x1 - x0|
  let dy := |y1 - y0|
  let sx : Int := if x0 < x1 then 1 else -1
  let sy : Int := if y0 < y1 then 1 else -1
  bresAux x1 y1 sx sy dx dy (dx.toNat + dy.toNat) x0 y0 (dx - dy)

/-- The body of `los_clear`'s loop, applied to the cells strictly after the
origin (the source skips index 0 of the enumeration). -/
def losCheck (g : Grid) (x1 y1 : Int) : List (Int × Int) → Bool
  | [] => true
  | (x, y) :: rest =>
    if in_bounds x y then
      if cellAt g x y = WALL ∧ ¬(x = x1 ∧ y = y1) then false
      else losCheck g x1 y1 rest
    else false

/-- `los_clear(grid, x0, y0, x1, y1)` (identical in both variants). -/
def los_clear (g : Grid) (x0 y0 x1 y1 : Int) : Bool :=
  losCheck g x1 y1 ((bresenham_line x0 y0 x1 y1).drop 1)

/-- The double loop shared by both `fov` variants: cells of the bounding square
within squared distance `FOV_RADIUS ^ 2` that pass `los_clear`. -/
def fovCells (px py : Int) (g : Grid) : List (Int × Int) :=
  (intRange (max 0 (py - FOV_RADIUS)) (min MAP_H (py + FOV_RADIUS + 1))).flatMap
    (fun y =>
      (intRange (max 0 (px - FOV_RADIUS)) (min MAP_W (px + FOV_RADIUS + 1))).filterMap
        (fun x =>
          if (x - px) ^ 2 + (y - py) ^ 2 ≤ FOV_RADIUS ^ 2 then
            if los_clear g px py x y then some (x, y) else none
          else none))

/-- `fov` of the curses variant (`roguelike.py`): no explicit origin insert. -/
def fovCurses (px py : Int) (g : Grid) : Finset (Int × Int) :=
  (fovCells px py g).toFinset

/-- `fov` of the Qt variant (`qt_roguelike.py`): the origin cell is inserted
unconditionally before the double loop. -/
def fovQt (px py : Int) (g : Grid) : Finset (Int × Int) :=
  insert (px, py) (fovCells px py g).toFinset

-- ----------------------------------------------------------------------
-- Data model
-- ----------------------------------------------------------------------

/-- The eight attributes (`ATTRS`); the Python dict is keyed by this fixed,
closed set of names, so it is modelled as a record. -/
structure Attrs where
  MU : Int
  KL : Int
  IN : Int
  CH : Int
  FF : Int
  GE : Int
  KO : Int
  KK : Int
deriving DecidableEq

/-- `Player.equipment` (Qt variant only; cosmetic). -/
structure Equipment where
  weapon : String
  armor : String
deriving DecidableEq

def defaultEquipment : Equipment := ⟨"Axe", "Cloth"⟩

/-- Monster entity.  `hp` may go negative before the death check, hence `Int`.
`xp` is the award amount, always one of the non-negative template constants. -/
structure Entity where
  x : Int
  y : Int
  ch : Char
  name : String
  hp : Int
  max_hp : Int
  alive : Bool
  fresh : Bool
  ai : String
  atk : Int
  dmg : Int × Int
  speed : Int
  regen : Int
  range : Int
  prefer : Int
  xp : Nat
deriving DecidableEq

/-- The player.  `level`, `xp`, `next_xp` are `Nat` (see the header note);
`angle` is the facing angle in units of pi radians (Qt variant only; the
curses `Player` has no `angle`/`equipment` and its operations never touch
these fields). -/
structure Player where
  x : Int
  y : Int
  attrs : Attrs
  atk : Int
  par : Int
  max_hp : Int
  hp : Int
  potions : Int
  level : Nat
  xp : Nat
  next_xp : Nat
  equipment : Equipment
  angle : ℚ
deriving DecidableEq

/-- The aggregate game state.  `visible` exists only in the Qt variant's
`Game`; curses-variant operations never touch it. -/
structure Game where
  depth : Int
  turn : Int
  grid : Grid
  rooms : List (Int × Int × Int × Int)
  player : Player
  mobs : List Entity
  items : List (Int × Int × String)
  stairs : Int × Int
  explored : Finset (Int × Int)
  visible : Finset (Int × Int)
  log : List String
  over : Bool
deriving DecidableEq

/-- `ENEMIES[kind]` expanded into an `Entity` at `(x, y)`, exactly as the
spawn code does (`alive = True`, `fresh = True`, `.get` defaults applied).
The default branch is unreachable: `random.choice` only returns bag members,
and every bag entry is one of the five species. -/
def mkEnemy (kind : String) (x y : Int) : Entity :=
  if kind = "goblin" then
    ⟨x, y, 'g', "goblin", 5, 5, true, true, "melee", 8, (1, 2), 1, 0, 0, 0, 8⟩
  else if kind = "orc" then
    ⟨x, y, 'o', "orc", 10, 10, true, true, "melee", 10, (2, 3), 1, 0, 0, 0, 14⟩
  else if kind = "wolf" then
    ⟨x, y, 'w', "wolf", 6, 6, true, true, "runner", 9, (1, 2), 2, 0, 0, 0, 10⟩
  else if kind = "archer" then
    ⟨x, y, 'a', "archer", 6, 6, true, true, "ranged", 8, (1, 2), 1, 0, 7, 4, 12⟩
  else if kind = "troll" then
    ⟨x, y, 'T', "troll", 20, 20, true, true, "melee", 10, (3, 5), 1, 1, 0, 0, 24⟩
  else
    ⟨x, y, 'g', "goblin", 5, 5, true, true, "melee", 8, (1, 2), 1, 0, 0, 0, 8⟩

-- ----------------------------------------------------------------------
-- Derived stats and XP
-- ----------------------------------------------------------------------

/-- `roll_base_attrs()`: one `randint(8, 14)` per attribute in `ATTRS` order,
then the dwarf racial and slayer profession modifiers. -/
def roll_base_attrs (r : Rng) : Attrs × Rng :=
  let mu := rint r 8 14
  let kl := rint mu.2 8 14
  let int_ := rint kl.2 8 14
  let chr_ := rint int_.2 8 14
  let ff := rint chr_.2 8 14
  let ge := rint ff.2 8 14
  let ko := rint ge.2 8 14
  let kk := rint ko.2 8 14
  (⟨mu.1 + 1, kl.1, int_.1, chr_.1 - 1, ff.1, ge.1 - 1, ko.1 + 2, kk.1 + 2 + 2⟩,
    kk.2)

/-- `derive(attrs)` -> `(max_hp, atk, par)`. -/
def derive (a : Attrs) : Int × Int × Int :=
  (20 + max 0 (a.KO - 10) + Int.fdiv a.KK 5,
   6 + Int.fdiv (a.KK + a.GE) 4,
   4 + Int.fdiv (a.GE + a.MU) 5)

/-- `xp_threshold(level)`. -/
def xp_threshold (level : Nat) : Nat := 20 + level * 10

-- ----------------------------------------------------------------------
-- Message log
-- ----------------------------------------------------------------------

/-- `push_log(g, msg)`: append, then keep the last `cap` entries
(`cap = LOG_MAX`, 160 in the Qt variant and 120 in the curses variant). -/
def push_log (cap : Nat) (g : Game) (msg : String) : Game :=
  let l := g.log ++ [msg]
  { g with log := if l.length > cap then l.drop (l.length - cap) else l }

-- ----------------------------------------------------------------------
-- Spawn bag and spawn placement
-- ----------------------------------------------------------------------

/-- The bag built by `depth_spawn_bag` before the empty-bag fallback:
`push(name, w)` appends `max(0, w)` copies of `name`. -/
def depthSpawnBagCore (depth : Int) : List String :=
  List.replicate (max 0 (max 2 (8 - min depth 6))).toNat "goblin" ++
  List.replicate (max 0 (max 1 depth)).toNat "wolf" ++
  List.replicate (max 0 (max 1 (Int.fdiv depth 1))).toNat "archer" ++
  List.replicate (max 0 (max 1 (1 + Int.fdiv depth 2))).toNat "orc" ++
  (if 2 ≤ depth then List.replicate (max 0 (max 1 (depth - 1))).toNat "troll"
   else [])

/-- `depth_spawn_bag(depth)`: the bag, or `["goblin"]` if it came out empty. -/
def depth_spawn_bag (depth : Int) : List String :=
  if depthSpawnBagCore depth = [] then ["goblin"] else depthSpawnBagCore depth

/-- `center(rect)` (Python `//` on the components). -/
def center (r : Int × Int × Int × Int) : Int × Int :=
  (r.1 + Int.fdiv r.2.2.1 2, r.2.1 + Int.fdiv r.2.2.2 2)

/-- One placement attempt loop: draw `(x, y)` with
`rint(1, MAP_W-2), rint(1, MAP_H-2)` up to `attempts` times and return the
first draw that is a floor cell distinct from `start` and `end`.  The Qt
variant runs this with the literal bounds 200 (items) and 300 (monsters); the
curses variant's loop is `while True`, embedded by passing an arbitrary bound
and letting it stand for the first `attempts` iterations of that infinite
loop (`none` means: no success within `attempts` attempts). -/
def placeLoop (g : Grid) (st en : Int × Int) :
    Nat → Rng → Option (Int × Int) × Rng
  | 0, r => (none, r)
  | attempts + 1, r =>
    let xd := rint r 1 (MAP_W - 2)
    let yd := rint xd.2 1 (MAP_H - 2)
    if cellAt g xd.1 yd.1 = FLOOR ∧ ¬((xd.1, yd.1) = st ∨ (xd.1, yd.1) = en)
    then (some (xd.1, yd.1), yd.2)
    else placeLoop g st en attempts yd.2

/-- The `for _ in range(7)` item loop of `spawn_mobs_items`, with per-placement
attempt bound `attempts`. -/
def spawnItemsLoop (g : Grid) (st en : Int × Int) (attempts : Nat) :
    Nat → Rng → List (Int × Int × String) → List (Int × Int × String) × Rng
  | 0, r, items => (items, r)
  | n + 1, r, items =>
    match placeLoop g st en attempts r with
    | (some c, r1) => spawnItemsLoop g st en attempts n r1 (items ++ [(c.1, c.2, "potion")])
    | (none, r1) => spawnItemsLoop g st en attempts n r1 items

/-- The `for _ in range(12)` monster loop of `spawn_mobs_items`: on a
successful cell draw, also draw `random.choice(bag)` and append the fresh
entity. -/
def spawnMobsLoop (g : Grid) (st en : Int × Int) (bag : List String)
    (attempts : Nat) :
    Nat → Rng → List Entity → List Entity × Rng
  | 0, r, mobs => (mobs, r)
  | n + 1, r, mobs =>
    match placeLoop g st en attempts r with
    | (some c, r1) =>
      let kd := rchoice r1 bag
      spawnMobsLoop g st en bag attempts n kd.2 (mobs ++ [mkEnemy kd.1 c.1 c.2])
    | (none, r1) => spawnMobsLoop g st en bag attempts n r1 mobs

/-- `spawn_mobs_items(g)` parameterised by the per-placement attempt bounds:
player start is the centre of the first room, stairs the centre of the last;
then 7 item placements and 12 monster placements. -/
def spawnWith (itemAttempts mobAttempts : Nat) (r : Rng) (g : Game) :
    Rng × Game :=
  let st := center (g.rooms.getD 0 (0, 0, 0, 0))
  let en := center (g.rooms.getD (g.rooms.length - 1) (0, 0, 0, 0))
  let g1 := { g with player := { g.player with x := st.1, y := st.2 }, stairs := en }
  let it := spawnItemsLoop g1.grid st en itemAttempts 7 r g1.items
  let bag := depth_spawn_bag g1.depth
  let mb := spawnMobsLoop g1.grid st en bag mobAttempts 12 it.2 g1.mobs
  (mb.2, { g1 with items := it.1, mobs := mb.1 })

/-- `spawn_mobs_items` of the Qt variant: `for _tries in range(200)` for items
and `range(300)` for monsters. -/
def spawn_mobs_items_qt (r : Rng) (g : Game) : Rng × Game :=
  spawnWith 200 300 r g

/-- `spawn_mobs_items` of the curses variant: both placement loops are
`while True`; `fuel` bounds how many iterations of each infinite loop are
modelled (the behaviour matches the source whenever the loop succeeds within
`fuel` attempts). -/
def spawn_mobs_items_curses (fuel : Nat) (r : Rng) (g : Game) : Rng × Game :=
  spawnWith fuel fuel r g

-- ----------------------------------------------------------------------
-- Map generation
-- ----------------------------------------------------------------------

/-- `carve_room(grid, r)`: mark all interior cells floor. -/
def carve_room (g : Grid) (r : Int × Int × Int × Int) : Grid :=
  (intRange r.2.1 (r.2.1 + r.2.2.2)).foldl
    (fun acc yy =>
      (intRange r.1 (r.1 + r.2.2.1)).foldl (fun a xx => setCell a xx yy FLOOR) acc)
    g

/-- `carve_h(grid, x1, x2, y)`. -/
def carve_h (g : Grid) (x1 x2 y : Int) : Grid :=
  (intRange (min x1 x2) (max x1 x2 + 1)).foldl (fun a x => setCell a x y FLOOR) g

/-- `carve_v(grid, y1, y2, x)`. -/
def carve_v (g : Grid) (y1 y2 x : Int) : Grid :=
  (intRange (min y1 y2) (max y1 y2 + 1)).foldl (fun a y => setCell a x y FLOOR) g

/-- One iteration of `make_map`'s room loop: draw a candidate rectangle,
reject it if its bounding box overlaps any accepted room, otherwise carve it
and (if it is not the first room) an L-shaped corridor to the previous room's
centre, choosing horizontal-first on the coin draw. -/
def makeMapLoop :
    Nat → Rng → Grid → List (Int × Int × Int × Int) →
    Rng × Grid × List (Int × Int × Int × Int)
  | 0, r, g, rooms => (r, g, rooms)
  | n + 1, r, g, rooms =>
    let wd := rint r ROOM_MIN ROOM_MAX
    let hd := rint wd.2 ROOM_MIN ROOM_MAX
    let xd := rint hd.2 1 (MAP_W - wd.1 - 2)
    let yd := rint xd.2 1 (MAP_H - hd.1 - 2)
    let nw : Int × Int × Int × Int := (xd.1, yd.1, wd.1, hd.1)
    let overlaps := rooms.any fun q =>
      decide (xd.1 ≤ q.1 + q.2.2.1 ∧ q.1 ≤ xd.1 + wd.1 ∧
              yd.1 ≤ q.2.1 + q.2.2.2 ∧ q.2.1 ≤ yd.1 + hd.1)
    if overlaps then makeMapLoop n yd.2 g rooms
    else
      let g1 := carve_room g nw
      if h : rooms ≠ [] then
        let ab := center (rooms.getLast h)
        let bc := center nw
        let cd := rcoin yd.2
        let g2 :=
          if cd.1 then carve_v (carve_h g1 ab.1 bc.1 ab.2) ab.2 bc.2 bc.1
          else carve_h (carve_v g1 ab.2 bc.2 ab.1) ab.1 bc.1 bc.2
        makeMapLoop n cd.2 g2 (rooms ++ [nw])
      else makeMapLoop n yd.2 g1 (rooms ++ [nw])

/-- `make_map()`: all-wall grid, then up to `MAX_ROOMS` room attempts. -/
def make_map (r : Rng) : Rng × Grid × List (Int × Int × Int × Int) :=
  makeMapLoop MAX_ROOMS r
    (List.replicate MAP_H.toNat (List.replicate MAP_W.toNat WALL)) []

-- ----------------------------------------------------------------------
-- XP / leveling
-- ----------------------------------------------------------------------

/-- One iteration of `award_xp`'s while-loop body: spend the threshold, gain a
level, recompute the threshold, raise max HP and attack, raise parry on even
levels, heal 4 capped at the new max, and log. -/
def levelUpOnce (cap : Nat) (g : Game) : Game :=
  let p := g.player
  let level := p.level + 1
  let mh := p.max_hp + 4
  let p1 : Player :=
    { p with
      xp := p.xp - p.next_xp
      level := level
      next_xp := xp_threshold level
      max_hp := mh
      atk := p.atk + 1
      par := if level % 2 = 0 then p.par + 1 else p.par
      hp := min mh (p.hp + 4) }
  let suffix := if level % 2 = 0 then ", PA+1" else ""
  push_log cap { g with player := p1 }
    s!"*** Level Up! Level {level}. MaxHP+4, AT+1{suffix}."

/-- The while-loop of `award_xp`, with an explicit iteration bound.  When
`next_xp = xp_threshold level` holds (it does at every call site and is
re-established by each iteration), every iteration lowers `xp` by at least 30,
so `xp + 1` iterations always suffice and the bound never truncates. -/
def awardLoopF (cap : Nat) : Nat → Game → Game
  | 0, g => g
  | fuel + 1, g =>
    if g.player.next_xp ≤ g.player.xp then awardLoopF cap fuel (levelUpOnce cap g)
    else g

/-- `award_xp(g, amount)`.  `amount` is `Nat`: every call site passes a
monster's non-negative `xp` template constant. -/
def award_xp (cap : Nat) (g : Game) (amount : Nat) : Game :=
  let g1 :=
    push_log cap { g with player := { g.player with xp := g.player.xp + amount } }
      s!"You gain {amount} XP."
  awardLoopF cap (g.player.xp + amount + 1) g1

-- ----------------------------------------------------------------------
-- Combat
-- ----------------------------------------------------------------------

/-- `damage_roll(dmg)`. -/
def damage_roll (r : Rng) (dmg : Int × Int) : Int × Rng :=
  rint r dmg.1 dmg.2

/-- `player_attack(g, mob)`: returns the advanced RNG, the updated game
(log, and player XP on a kill) and the updated target entity, which the
caller writes back into the monster list (the Python code mutates the shared
object in place). -/
def player_attack (cap : Nat) (r : Rng) (g : Game) (mob : Entity) :
    Rng × Game × Entity :=
  let hit := roll r 1 20
  if hit.1 ≤ max 3 (g.player.atk - 2) then
    let op := if mob.fresh then roll hit.2 1 2 else (0, hit.2)
    let mob1 := { mob with fresh := false }
    let bd := roll op.2 1 3
    let base := 2 + bd.1
    let kk_bonus := max 0 (Int.fdiv (g.player.attrs.KK - 10) 2)
    let dmg := max 1 (base + kk_bonus + op.1)
    let mob2 := { mob1 with hp := mob1.hp - dmg }
    let nm := mob2.name
    let g1 := push_log cap g s!"You hit the {nm} for {dmg}."
    if mob2.hp ≤ 0 then
      let mob3 := { mob2 with alive := false }
      let g2 := push_log cap g1 (nm.capitalize ++ " dies!")
      (bd.2, award_xp cap g2 mob3.xp, mob3)
    else (bd.2, g1, mob2)
  else
    let nm := mob.name
    (hit.2, push_log cap g s!"You miss the {nm}.", mob)

/-- `enemy_attack_player(g, m)`; note the Python `and` short-circuits, so the
parry die is only rolled when the to-hit die succeeds. -/
def enemy_attack_player (cap : Nat) (r : Rng) (g : Game) (m : Entity) :
    Rng × Game :=
  let nm := m.name
  let a := roll r 1 20
  if a.1 ≤ m.atk then
    let b := roll a.2 1 20
    if g.player.par < b.1 then
      let d := damage_roll b.2 m.dmg
      let cnm := nm.capitalize
      let dv := d.1
      (d.2,
        push_log cap { g with player := { g.player with hp := g.player.hp - d.1 } }
          s!"{cnm} hits you ({dv}).")
    else (b.2, push_log cap g s!"You fend off the {nm}.")
  else (a.2, push_log cap g s!"You fend off the {nm}.")

/-- `use_potion(g)`. -/
def use_potion (cap : Nat) (g : Game) : Game :=
  if g.player.potions ≤ 0 then g
  else
    let heal := max 4 (6 + max 0 (Int.fdiv (g.player.attrs.KO - 10) 2))
    push_log cap
      { g with player :=
        { g.player with
          potions := g.player.potions - 1
          hp := min g.player.max_hp (g.player.hp + heal) } }
      "You quaff a bitter dwarf brew. (+HP)"

-- ----------------------------------------------------------------------
-- Monster movement and AI
-- ----------------------------------------------------------------------

/-- The occupancy test of `step_toward`:
`any(o.alive and (o.x, o.y) == (nx, ny) and o is not m for o in g.mobs)`.
Python compares object identity; list slots hold distinct objects, so `o is
not m` is modelled as the slot index differing from the moving monster's. -/
def anyOtherAt : List Entity → Nat → Nat → Int → Int → Bool
  | [], _, _, _, _ => false
  | o :: rest, j, i, nx, ny =>
    (o.alive && decide (o.x = nx) && decide (o.y = ny) && decide (j ≠ i)) ||
      anyOtherAt rest (j + 1) i nx ny

/-- The guarded move of `step_toward` once the destination `(nx, ny)` is
computed: rejected wholesale if it is out of bounds, a wall, the player's
cell, or another living monster's cell. -/
def stepTo (g : Game) (i : Nat) (m : Entity) (nx ny : Int) : Game :=
  if ¬in_bounds nx ny then g
  else if cellAt g.grid nx ny = WALL then g
  else if (nx, ny) = (g.player.x, g.player.y) then g
  else if anyOtherAt g.mobs 0 i nx ny then g
  else { g with mobs := g.mobs.set i { m with x := nx, y := ny } }

/-- `step_toward(g, m, tx, ty)` for the monster in slot `i`: one greedy
diagonal-capable step (`dx`, `dy` each the sign of the offset to the
target), guarded by `stepTo`. -/
def step_toward (g : Game) (i : Nat) (tx ty : Int) : Game :=
  match g.mobs.get? i with
  | none => g
  | some m =>
    stepTo g i m
      (m.x + (if tx > m.x then 1 else if tx < m.x then -1 else 0))
      (m.y + (if ty > m.y then 1 else if ty < m.y then -1 else 0))

/-- The melee/runner step loop of `ai_turn` (Qt variant: the distance is
recomputed from the current positions on every iteration; `hypot <= 1.5` is
the squared comparison `<= 2`). -/
def meleeLoop (cap : Nat) : Nat → Rng → Game → Nat → Rng × Game
  | 0, r, g, _ => (r, g)
  | k + 1, r, g, j =>
    match g.mobs.get? j with
    | none => (r, g)
    | some m =>
      if (m.x - g.player.x) ^ 2 + (m.y - g.player.y) ^ 2 ≤ 2 then
        enemy_attack_player cap r g m
      else meleeLoop cap k r (step_toward g j g.player.x g.player.y) j

/-- One monster's turn (`ai_turn` loop body) for the monster in slot `j`:
regen, then ranged attack/kite or melee/runner movement.  All `math.hypot`
threshold tests are the equivalent squared-distance tests. -/
def aiMob (cap : Nat) (r : Rng) (g : Game) (j : Nat) : Rng × Game :=
  match g.mobs.get? j with
  | none => (r, g)
  | some m =>
    if ¬m.alive then (r, g)
    else
      let g1 :=
        if m.regen ≠ 0 ∧ 0 < m.hp ∧ m.hp < m.max_hp then
          { g with mobs := g.mobs.set j { m with hp := min m.max_hp (m.hp + m.regen) } }
        else g
      let sq := (m.x - g1.player.x) ^ 2 + (m.y - g1.player.y) ^ 2
      if m.ai = "ranged" then
        if 1 < sq ∧ sq ≤ m.range ^ 2 ∧
            los_clear g1.grid m.x m.y g1.player.x g1.player.y then
          enemy_attack_player cap r g1 m
        else if sq < m.prefer ^ 2 then
          (r, step_toward g1 j (m.x - (g1.player.x - m.x)) (m.y - (g1.player.y - m.y)))
        else (r, step_toward g1 j g1.player.x g1.player.y)
      else
        let steps := if m.ai = "runner" ∧ 4 < sq then 2 else 1
        meleeLoop cap steps r g1 j

/-- Fold of `aiMob` over the monster slots. -/
def aiTurnAux (cap : Nat) : List Nat → Rng → Game → Rng × Game
  | [], r, g => (r, g)
  | j :: rest, r, g =>
    let s := aiMob cap r g j
    aiTurnAux cap rest s.1 s.2

/-- `ai_turn(g)`: every monster acts once, in list order (the list length is
fixed during the turn; monsters that already moved are seen at their new
positions by later monsters). -/
def ai_turn (cap : Nat) (r : Rng) (g : Game) : Rng × Game :=
  aiTurnAux cap (List.range g.mobs.length) r g

-- ----------------------------------------------------------------------
-- Visibility bookkeeping and floor transitions
-- ----------------------------------------------------------------------

/-- `update_visibility(g)` (Qt variant). -/
def update_visibility (g : Game) : Game :=
  let vis := fovQt g.player.x g.player.y g.grid
  { g with visible := vis, explored := g.explored ∪ vis }

/-- `new_floor(g)` for `g` not `None`, Qt variant: regenerate the map, clear
monsters/items/explored/visible, respawn, restore the facing angle, recompute
visibility. -/
def new_floor_qt (r : Rng) (g : Game) : Rng × Game :=
  let mm := make_map r
  let ang := g.player.angle
  let g1 :=
    { g with grid := mm.2.1, rooms := mm.2.2, mobs := [], items := [],
             explored := ∅, visible := ∅ }
  let sp := spawn_mobs_items_qt mm.1 g1
  let g2 := { sp.2 with player := { sp.2.player with angle := ang } }
  (sp.1, update_visibility g2)

/-- `new_floor(g)` for `g` not `None`, curses variant: no `visible` field and
no visibility recomputation; `fuel` is the spawn-loop bound. -/
def new_floor_curses (fuel : Nat) (r : Rng) (g : Game) : Rng × Game :=
  let mm := make_map r
  let g1 :=
    { g with grid := mm.2.1, rooms := mm.2.2, mobs := [], items := [],
             explored := ∅ }
  spawn_mobs_items_curses fuel mm.1 g1

/-- `new_floor(None)`, Qt variant: fresh attributes, fresh player, fresh
floor-1 game. -/
def new_floor_none_qt (r : Rng) : Rng × Game :=
  let mm := make_map r
  let ra := roll_base_attrs mm.1
  let dv := derive ra.1
  let p : Player :=
    ⟨1, 1, ra.1, dv.2.1, dv.2.2, dv.1, dv.1, 0, 1, 0, xp_threshold 1,
      defaultEquipment, 0⟩
  let g : Game :=
    ⟨1, 1, mm.2.1, mm.2.2, p, [], [], (0, 0), ∅, ∅,
      ["You shoulder your axe and enter."], false⟩
  let sp := spawn_mobs_items_qt ra.2 g
  (sp.1, update_visibility sp.2)

-- ----------------------------------------------------------------------
-- Player movement
-- ----------------------------------------------------------------------

/-- First slot index holding a living monster at `(nx, ny)`. -/
def findAliveAt : List Entity → Nat → Int → Int → Option Nat
  | [], _, _, _ => none
  | m :: rest, j, nx, ny =>
    if m.alive ∧ m.x = nx ∧ m.y = ny then some j
    else findAliveAt rest (j + 1) nx ny

/-- First index of a potion item at `(x, y)` (the pickup loop breaks after
the first match). -/
def pickupIdx : List (Int × Int × String) → Nat → Int → Int → Option Nat
  | [], _, _, _ => none
  | it :: rest, j, x, y =>
    if it.1 = x ∧ it.2.1 = y ∧ it.2.2 = "potion" then some j
    else pickupIdx rest (j + 1) x y

/-- `atan2(dy, dx)` in units of pi, for the unit step vectors the program
passes (`dx, dy` in `{-1, 0, 1}`); `atan2(0, 0) = 0` as in Python. -/
def atan2PiUnits (dy dx : Int) : ℚ :=
  if 0 < dy then (if 0 < dx then 1 / 4 else if dx = 0 then 1 / 2 else 3 / 4)
  else if dy = 0 then (if 0 ≤ dx then 0 else 1)
  else if 0 < dx then -1 / 4
  else if dx = 0 then -1 / 2
  else -3 / 4

/-- The shared body of `try_move_player` after the optional facing-angle
update: clamp, wall test, attack-or-move, potion pickup, stairs descent
(which calls the supplied `new_floor`). -/
def tryMoveBody (cap : Nat) (descend : Rng → Game → Rng × Game) (r : Rng)
    (g : Game) (dx dy : Int) : Rng × Game :=
  let nx := max 0 (min (MAP_W - 1) (g.player.x + dx))
  let ny := max 0 (min (MAP_H - 1) (g.player.y + dy))
  if cellAt g.grid nx ny = WALL then (r, g)
  else
    match findAliveAt g.mobs 0 nx ny with
    | some j =>
      match g.mobs.get? j with
      | some m =>
        let res := player_attack cap r g m
        (res.1, { res.2.1 with mobs := res.2.1.mobs.set j res.2.2 })
      | none => (r, g)
    | none =>
      let g1 := { g with player := { g.player with x := nx, y := ny } }
      let g2 :=
        match pickupIdx g1.items 0 nx ny with
        | some i =>
          push_log cap
            { g1 with player := { g1.player with potions := g1.player.potions + 1 },
                      items := g1.items.eraseIdx i }
            "You pick up a healing draught."
        | none => g1
      if (g2.player.x, g2.player.y) = g2.stairs then
        let g3 := { g2 with depth := g2.depth + 1, turn := g2.turn + 1 }
        descend r
          (push_log cap g3 ("You descend to Depth " ++ toString g3.depth ++ "."))
      else (r, g2)

/-- `try_move_player(g, dx, dy)`, Qt variant (updates the facing angle on a
nonzero step). -/
def try_move_player_qt (r : Rng) (g : Game) (dx dy : Int) : Rng × Game :=
  let g0 :=
    if dx ≠ 0 ∨ dy ≠ 0 then
      { g with player := { g.player with angle := atan2PiUnits dy dx } }
    else g
  tryMoveBody LOG_MAX_QT new_floor_qt r g0 dx dy

/-- `try_move_player(g, dx, dy)`, curses variant (no facing angle). -/
def try_move_player_curses (fuel : Nat) (r : Rng) (g : Game) (dx dy : Int) :
    Rng × Game :=
  tryMoveBody LOG_MAX_CURSES (new_floor_curses fuel) r g dx dy

-- ----------------------------------------------------------------------
-- Qt MainWindow action handlers
-- ----------------------------------------------------------------------

/-- `rotate_player(g, delta_deg)`: add `radians(delta_deg)` to the facing
angle, mod 2 pi — in units of pi: add `delta_deg / 180`, mod 2 (floor-style
modulus, as Python's float `%`). -/
def rotate_player (g : Game) (delta_deg : ℚ) : Game :=
  let a := g.player.angle + delta_deg / 180
  { g with player := { g.player with angle := a - 2 * ⌊a / 2⌋ } }

/-- `MainWindow.refresh`: `update_visibility` plus pure repaints. -/
def refreshUV (g : Game) : Game := update_visibility g

/-- `MainWindow.end_turn`. -/
def end_turn (r : Rng) (g : Game) : Rng × Game :=
  let s := ai_turn LOG_MAX_QT r { g with turn := g.turn + 1 }
  let g2 :=
    if s.2.player.hp ≤ 0 then push_log LOG_MAX_QT { s.2 with over := true } "You fall..."
    else s.2
  (s.1, refreshUV g2)

/-- `MainWindow.action_or_move` (move, attack and wait all route through
this; guarded by the game-over flag). -/
def action_or_move (r : Rng) (g : Game) (dx dy : Int) : Rng × Game :=
  if g.over then (r, g)
  else
    let t := try_move_player_qt r g dx dy
    end_turn t.1 t.2

/-- `MainWindow.on_rest` (guarded by the game-over flag). -/
def on_rest (r : Rng) (g : Game) : Rng × Game :=
  if g.over then (r, g)
  else
    end_turn r
      (push_log LOG_MAX_QT
        { g with player := { g.player with hp := min g.player.max_hp (g.player.hp + 1) } }
        "You catch your breath.")

/-- `MainWindow.on_potion` (guarded by the game-over flag). -/
def on_potion (r : Rng) (g : Game) : Rng × Game :=
  if g.over then (r, g) else end_turn r (use_potion LOG_MAX_QT g)

/-- `MainWindow.keyPressEvent` on Q: `rotate_player(game, -15)` then
`refresh()` — not guarded by the game-over flag. -/
def key_rotate_q (g : Game) : Game := refreshUV (rotate_player g (-15))

/-- `MainWindow.keyPressEvent` on E: `rotate_player(game, +15)` then
`refresh()` — not guarded by the game-over flag. -/
def key_rotate_e (g : Game) : Game := refreshUV (rotate_player g 15)

-- ----------------------------------------------------------------------
-- Predicates used in theorem statements
-- ----------------------------------------------------------------------

/-- Cells strictly after the origin that abort a LOS walk. -/
def losBad (g : Grid) (x1 y1 : Int) (p : Int × Int) : Prop :=
  ¬in_bounds p.1 p.2 ∨ (cellAt g p.1 p.2 = WALL ∧ ¬(p.1 = x1 ∧ p.2 = y1))

/-- No two living monsters occupy the same grid cell (slot-indexed, since
Python list slots are distinct objects). -/
def mobsNoOverlap (mobs : List Entity) : Prop :=
  ∀ i j mi mj, i ≠ j → mobs.get? i = some mi → mobs.get? j = some mj →
    mi.alive = true → mj.alive = true → (mi.x, mi.y) ≠ (mj.x, mj.y)

-- ----------------------------------------------------------------------
-- Derived quantities used to state the leveling theorem
-- ----------------------------------------------------------------------

/-- Sum of the XP thresholds spent by `k` consecutive level-ups starting at
`level` (specification-side quantity; the loop subtracts
`xp_threshold level`, then `xp_threshold (level+1)`, and so on). -/
def thresholdSum (level : Nat) : Nat → Nat
  | 0 => 0
  | k + 1 => xp_threshold level + thresholdSum (level + 1) k

/-- Number of even levels among the `k` levels reached by consecutive
level-ups starting at `level` (specification-side quantity; parry rises by
one exactly at each even new level). -/
def evenGains (level : Nat) : Nat → Nat
  | 0 => 0
  | k + 1 => (if (level + 1) % 2 = 0 then 1 else 0) + evenGains (level + 1) k

-- ----------------------------------------------------------------------
-- Concrete sample states (used to exercise theorems on concrete inputs)
-- ----------------------------------------------------------------------

/-- A concrete attribute set (as produced by all-minimum base draws). -/
def sampleAttrs : Attrs := ⟨9, 8, 8, 7, 8, 7, 10, 12⟩

/-- A concrete freshly-derived player. -/
def samplePlayer : Player :=
  ⟨1, 1, sampleAttrs, 10, 7, 22, 22, 0, 1, 0, 30, defaultEquipment, 0⟩

/-- A concrete minimal game state around `samplePlayer`. -/
def sampleGame : Game :=
  ⟨1, 1, [], [], samplePlayer, [], [], (0, 0), ∅, ∅, [], false⟩

/-- `sampleGame` holding two potions. -/
def sampleGameP : Game :=
  { sampleGame with player := { samplePlayer with potions := 2 } }

/-- The all-zero draw stream. -/
def zeroRng : Rng := fun _ => 0

/-- A concrete fresh goblin. -/
def sampleGoblin : Entity := mkEnemy "goblin" 2 1

/-- `sampleGame` with two living monsters on distinct cells. -/
def sampleGameM : Game :=
  { sampleGame with mobs := [mkEnemy "goblin" 2 1, mkEnemy "orc" 4 1] }

/-- A draw stream for `new_floor(None)` under which `make_map` accepts a
single 9 x 9 room at (1, 1) (the other eleven candidates duplicate it and are
rejected), every item lands on (2, 2), and every monster placement draws the
cell (3, 3) and the bag index 0 (a goblin) — so monsters stack. -/
def c2seq : Rng := fun i =>
  if i < 48 then [5, 5, 0, 0].getD (i % 4) 0
  else if i < 56 then 0
  else if i < 70 then 1
  else [2, 2, 0].getD ((i - 70) % 3) 0

/-- A draw stream whose first 200 cell draws all hit the wall cell (1, 1) and
whose draws from index 400 on all hit (5, 5) (and bag index 4). -/
def c3seq : Rng := fun i => if i < 400 then 0 else 4

/-- An all-wall grid with a single floor cell at (5, 5). -/
def c3Grid : Grid := setCell (List.replicate 28 (List.replicate 60 '#')) 5 5 FLOOR

/-- A game on `c3Grid` whose first and last room centres are (0, 0). -/
def c3Game : Game :=
  { sampleGame with grid := c3Grid, rooms := [(0, 0, 1, 1), (0, 0, 1, 1)] }

/-- An all-floor game whose stairs sit directly east of the player. -/
def c8Game : Game :=
  { sampleGame with grid := List.replicate 28 (List.replicate 60 FLOOR),
                    stairs := (2, 1) }

-- ----------------------------------------------------------------------
-- THEOREMS
-- ----------------------------------------------------------------------

-- Helper lemmas (shared; no claim theorem is used by another declaration).

theorem intRange_mem {a b t : Int} (h1 : a ≤ t) (h2 : t < b) :
    t ∈ intRange a b := by
  have hi : (t - a).toNat ∈ List.range (b - a).toNat := List.mem_range.mpr (by omega)
  have h3 := List.mem_map_of_mem (fun i : Nat => a + (i : Int)) hi
  have he : (fun i : Nat => a + (i : Int)) ((t - a).toNat) = t := by
    show a + ((t - a).toNat : Int) = t
    omega
  rw [he] at h3
  unfold intRange
  exact h3

theorem bresenham_line_self (x y : Int) :
    bresenham_line x y x y = [(x, y)] := by
  simp [bresenham_line, bresAux]

theorem los_clear_self (g : Grid) (x y : Int) :
    los_clear g x y x y = true := by
  simp [los_clear, bresenham_line_self, losCheck]

theorem mem_fovCells_origin (g : Grid) (px py : Int) (h : in_bounds px py) :
    (px, py) ∈ fovCells px py g := by
  obtain ⟨h1, h2, h3, h4⟩ := h
  simp only [MAP_W] at h2
  simp only [MAP_H] at h4
  unfold fovCells
  rw [List.mem_flatMap]
  refine ⟨py, intRange_mem (by simp only [FOV_RADIUS]; omega)
    (by simp only [MAP_H, FOV_RADIUS]; omega), ?_⟩
  rw [List.mem_filterMap]
  refine ⟨px, intRange_mem (by simp only [FOV_RADIUS]; omega)
    (by simp only [MAP_W, FOV_RADIUS]; omega), ?_⟩
  have hc1 : (px - px) ^ 2 + (py - py) ^ 2 ≤ FOV_RADIUS ^ 2 := by
    simp only [FOV_RADIUS]
    norm_num
  rw [if_pos hc1]
  simp [los_clear_self]

theorem losCheck_eq_false_iff (g : Grid) (x1 y1 : Int) (l : List (Int × Int)) :
    losCheck g x1 y1 l = false ↔ ∃ p ∈ l, losBad g x1 y1 p := by
  induction l with
  | nil => simp [losCheck]
  | cons hd tl ih =>
    obtain ⟨x, y⟩ := hd
    simp only [losCheck]
    by_cases hb : in_bounds x y
    · rw [if_pos hb]
      by_cases hw : cellAt g x y = WALL ∧ ¬(x = x1 ∧ y = y1)
      · rw [if_pos hw]
        constructor
        · intro _
          exact ⟨(x, y), List.mem_cons_self _ _, Or.inr hw⟩
        · intro _
          rfl
      · rw [if_neg hw, ih]
        constructor
        · rintro ⟨p, hp, hbad⟩
          exact ⟨p, List.mem_cons_of_mem _ hp, hbad⟩
        · rintro ⟨p, hp, hbad⟩
          rcases List.mem_cons.mp hp with rfl | hp2
          · rcases hbad with hob | hwall
            · exact absurd hb hob
            · exact absurd hwall hw
          · exact ⟨p, hp2, hbad⟩
    · rw [if_neg hb]
      constructor
      · intro _
        exact ⟨(x, y), List.mem_cons_self _ _, Or.inl hb⟩
      · intro _
        rfl

-- C5 -----------------------------------------------------------------

/-- C5: for every grid and every in-bounds player position, the visible set
returned by `fov` contains the origin cell, in both source variants (the Qt
variant inserts it unconditionally; the curses variant reaches it through the
trivially clear self-ray). -/
theorem c5_fov_contains_origin (g : Grid) (px py : Int)
    (h : in_bounds px py) :
    (px, py) ∈ fovCurses px py g ∧ (px, py) ∈ fovQt px py g := by
  constructor
  · unfold fovCurses
    rw [List.mem_toFinset]
    exact mem_fovCells_origin g px py h
  · exact Finset.mem_insert_self _ _

theorem c5_fov_contains_origin_witness :
    in_bounds 7 9 ∧ ((7, 9) ∈ fovCurses 7 9 [] ∧ (7, 9) ∈ fovQt 7 9 []) :=
  ⟨by decide, c5_fov_contains_origin [] 7 9 (by decide)⟩

-- C6 -----------------------------------------------------------------

/-- C6: `los_clear(grid, x0, y0, x1, y1)` returns `False` exactly when some
cell strictly after the origin on the Bresenham line from `(x0, y0)` to
`(x1, y1)` is out of bounds, or is a wall cell other than the target cell
`(x1, y1)` itself (so a wall at the target does not abort the ray, but a wall
strictly before the target does). -/
theorem c6_los_clear_false_iff (g : Grid) (x0 y0 x1 y1 : Int) :
    los_clear g x0 y0 x1 y1 = false ↔
      ∃ p ∈ (bresenham_line x0 y0 x1 y1).drop 1,
        ¬in_bounds p.1 p.2 ∨
          (cellAt g p.1 p.2 = WALL ∧ ¬(p.1 = x1 ∧ p.2 = y1)) :=
  losCheck_eq_false_iff g x1 y1 ((bresenham_line x0 y0 x1 y1).drop 1)

-- C10 ----------------------------------------------------------------

/-- C10: for every integer depth, the spawn bag contains exactly
`max(2, 8 - min(depth, 6))` (hence at least 2) goblin entries, is never
empty, never takes the empty-bag fallback branch, and contains troll entries
exactly when `depth >= 2`. -/
theorem c10_depth_spawn_bag (d : Int) :
    2 ≤ (depth_spawn_bag d).count "goblin" ∧
    (depth_spawn_bag d).count "goblin" = (max 2 (8 - min d 6)).toNat ∧
    depth_spawn_bag d ≠ [] ∧
    depth_spawn_bag d = depthSpawnBagCore d ∧
    ("troll" ∈ depth_spawn_bag d ↔ 2 ≤ d) := by
  have hcount : (depthSpawnBagCore d).count "goblin" = (max 2 (8 - min d 6)).toNat := by
    unfold depthSpawnBagCore
    by_cases h2 : 2 ≤ d <;>
      simp [h2, List.count_append, List.count_replicate]
  have hne : depthSpawnBagCore d ≠ [] := by
    intro h
    have := congrArg (List.count "goblin") h
    rw [hcount] at this
    simp at this
  have heq : depth_spawn_bag d = depthSpawnBagCore d := by
    unfold depth_spawn_bag
    rw [if_neg hne]
  refine ⟨?_, ?_, ?_, heq, ?_⟩
  · rw [heq, hcount]; omega
  · rw [heq, hcount]
  · rw [heq]; exact hne
  · rw [heq]
    unfold depthSpawnBagCore
    by_cases h2 : 2 ≤ d <;>
      simp [h2, List.mem_append, List.mem_replicate]

-- C7 -----------------------------------------------------------------

/-- C7: `use_potion` with no potions held leaves the entire game state
unchanged (no heal, no potion change, no log entry) and never signals an
error; with at least one potion it decrements the potion count by exactly 1
and sets hp to `min(max_hp, hp + max(4, 6 + max(0, (KO - 10) // 2)))`. -/
theorem c7_use_potion (cap : Nat) (g : Game) :
    (g.player.potions ≤ 0 → use_potion cap g = g) ∧
    (1 ≤ g.player.potions →
      (use_potion cap g).player.potions = g.player.potions - 1 ∧
      (use_potion cap g).player.hp =
        min g.player.max_hp
          (g.player.hp + max 4 (6 + max 0 (Int.fdiv (g.player.attrs.KO - 10) 2)))) := by
  constructor
  · intro h
    unfold use_potion
    rw [if_pos h]
  · intro h
    unfold use_potion
    rw [if_neg (by omega)]
    simp [push_log]

theorem c7_use_potion_witness :
    (use_potion LOG_MAX_QT sampleGame = sampleGame) ∧
    ((use_potion LOG_MAX_QT sampleGameP).player.potions =
        sampleGameP.player.potions - 1 ∧
      (use_potion LOG_MAX_QT sampleGameP).player.hp =
        min sampleGameP.player.max_hp
          (sampleGameP.player.hp +
            max 4 (6 + max 0 (Int.fdiv (sampleGameP.player.attrs.KO - 10) 2)))) :=
  ⟨(c7_use_potion LOG_MAX_QT sampleGame).1 (by decide),
    (c7_use_potion LOG_MAX_QT sampleGameP).2 (by decide)⟩

-- C9 -----------------------------------------------------------------

theorem rint_bounds (r : Rng) (a b : Int) (h : a ≤ b) :
    a ≤ (rint r a b).1 ∧ (rint r a b).1 ≤ b := by
  have hm : r 0 % (b - a + 1).toNat < (b - a + 1).toNat :=
    Nat.mod_lt _ (by omega)
  constructor
  · show a ≤ a + ((r 0 % (b - a + 1).toNat : Nat) : Int)
    omega
  · show a + ((r 0 % (b - a + 1).toNat : Nat) : Int) ≤ b
    omega

theorem roll_one_bounds (r : Rng) (s : Int) (hs : 1 ≤ s) :
    1 ≤ (roll r 1 s).1 ∧ (roll r 1 s).1 ≤ s := by
  have h := rint_bounds r 1 s hs
  show 1 ≤ (rint r 1 s).1 + (0 : Int) ∧ (rint r 1 s).1 + (0 : Int) ≤ s
  omega

/-- C9: in `player_attack`, whenever the to-hit roll succeeds, the damage
subtracted from the target's hp equals
`2 + roll(1,3) + max(0, (KK - 10) // 2) + opener`, where `opener` is
`roll(1,2)` if the target was fresh and `0` otherwise; that quantity is
always at least 3, so the `max(1, _)` damage floor never changes the value.
The intermediate draws are pinned by equations so the damage formula can
name them. -/
theorem c9_player_attack_damage (cap : Nat) (r : Rng) (g : Game) (m : Entity)
    (opv d3 dmg : Int)
    (hhit : (roll r 1 20).1 ≤ max 3 (g.player.atk - 2))
    (hop : opv =
      (if m.fresh then roll ((roll r 1 20).2) 1 2
       else ((0 : Int), (roll r 1 20).2)).1)
    (hd3 : d3 =
      (roll ((if m.fresh then roll ((roll r 1 20).2) 1 2
              else ((0 : Int), (roll r 1 20).2)).2) 1 3).1)
    (hdmg : dmg = 2 + d3 + max 0 (Int.fdiv (g.player.attrs.KK - 10) 2) + opv) :
    (player_attack cap r g m).2.2.hp = m.hp - dmg ∧
    1 ≤ d3 ∧ d3 ≤ 3 ∧ 0 ≤ opv ∧ 3 ≤ dmg ∧ max 1 dmg = dmg ∧
    (player_attack cap r g m).2.2.fresh = false := by
  have hd3b :=
    roll_one_bounds
      ((if m.fresh then roll ((roll r 1 20).2) 1 2
        else ((0 : Int), (roll r 1 20).2)).2) 3 (by norm_num)
  rw [← hd3] at hd3b
  have hopb : 0 ≤ opv := by
    by_cases hf : m.fresh = true
    · rw [hf, if_pos rfl] at hop
      have := roll_one_bounds ((roll r 1 20).2) 2 (by norm_num)
      omega
    · rw [if_neg hf] at hop
      simp at hop
      omega
  have hkk : 0 ≤ max 0 (Int.fdiv (g.player.attrs.KK - 10) 2) := le_max_left _ _
  have hdb : 3 ≤ dmg := by omega
  have hmx : max 1 dmg = dmg := by omega
  have hmain : (player_attack cap r g m).2.2.hp = m.hp - dmg ∧
      (player_attack cap r g m).2.2.fresh = false := by
    simp only [player_attack]
    rw [if_pos hhit, ← hop, ← hd3]
    split
    · constructor <;> simp
      omega
    · constructor <;> simp
      omega
  exact ⟨hmain.1, by omega, by omega, hopb, hdb, hmx, hmain.2⟩

theorem c9_player_attack_damage_witness :
    (roll zeroRng 1 20).1 ≤ max 3 (sampleGame.player.atk - 2) ∧
    ((player_attack LOG_MAX_QT zeroRng sampleGame sampleGoblin).2.2.hp =
        sampleGoblin.hp - 5 ∧
      1 ≤ (1 : Int) ∧ (1 : Int) ≤ 3 ∧ (0 : Int) ≤ 1 ∧ (3 : Int) ≤ 5 ∧
      max 1 (5 : Int) = 5 ∧
      (player_attack LOG_MAX_QT zeroRng sampleGame sampleGoblin).2.2.fresh = false) :=
  ⟨by decide,
    c9_player_attack_damage LOG_MAX_QT zeroRng sampleGame sampleGoblin 1 1 5
      (by decide) (by decide) (by decide) (by decide)⟩

-- C1 -----------------------------------------------------------------

theorem push_log_player (cap : Nat) (g : Game) (msg : String) :
    (push_log cap g msg).player = g.player := rfl

theorem levelUpOnce_player (cap : Nat) (g : Game) :
    (levelUpOnce cap g).player.level = g.player.level + 1 ∧
    (levelUpOnce cap g).player.xp = g.player.xp - g.player.next_xp ∧
    (levelUpOnce cap g).player.next_xp = xp_threshold (g.player.level + 1) ∧
    (levelUpOnce cap g).player.max_hp = g.player.max_hp + 4 ∧
    (levelUpOnce cap g).player.atk = g.player.atk + 1 ∧
    (levelUpOnce cap g).player.par =
      g.player.par + (if (g.player.level + 1) % 2 = 0 then 1 else 0) ∧
    (levelUpOnce cap g).player.hp =
      min (g.player.max_hp + 4) (g.player.hp + 4) ∧
    (levelUpOnce cap g).player.potions = g.player.potions := by
  unfold levelUpOnce
  rw [push_log_player]
  by_cases hpar : (g.player.level + 1) % 2 = 0 <;> simp [hpar]

/-- Behaviour of the `award_xp` while-loop under the call-site invariant
`next_xp = xp_threshold level`, for any sufficiently large iteration bound:
the final state reflects `k` level-ups for some `k`. -/
theorem awardLoopF_spec (cap : Nat) :
    ∀ (fuel : Nat) (g : Game),
      g.player.xp < fuel →
      g.player.next_xp = xp_threshold g.player.level →
      ∃ k : Nat,
        (awardLoopF cap fuel g).player.level = g.player.level + k ∧
        (awardLoopF cap fuel g).player.atk = g.player.atk + (k : Int) ∧
        (awardLoopF cap fuel g).player.max_hp = g.player.max_hp + 4 * (k : Int) ∧
        (awardLoopF cap fuel g).player.par =
          g.player.par + (evenGains g.player.level k : Int) ∧
        (awardLoopF cap fuel g).player.next_xp =
          xp_threshold (awardLoopF cap fuel g).player.level ∧
        (awardLoopF cap fuel g).player.xp + thresholdSum g.player.level k =
          g.player.xp ∧
        (awardLoopF cap fuel g).player.xp < (awardLoopF cap fuel g).player.next_xp ∧
        (g.player.hp ≤ g.player.max_hp →
          g.player.hp ≤ (awardLoopF cap fuel g).player.hp ∧
          (awardLoopF cap fuel g).player.hp ≤ (awardLoopF cap fuel g).player.max_hp) ∧
        (awardLoopF cap fuel g).player.potions = g.player.potions := by
  intro fuel
  induction fuel with
  | zero => intro g h _; omega
  | succ f ih =>
    intro g hf hinv
    by_cases hg : g.player.next_xp ≤ g.player.xp
    · have hstep : awardLoopF cap (f + 1) g = awardLoopF cap f (levelUpOnce cap g) := by
        simp only [awardLoopF]
        rw [if_pos hg]
      obtain ⟨hL, hX, hN, hM, hA, hP, hH, hPo⟩ := levelUpOnce_player cap g
      have hthr : xp_threshold g.player.level = 20 + g.player.level * 10 := rfl
      have hfuel2 : (levelUpOnce cap g).player.xp < f := by
        rw [hX]
        omega
      have hinv2 : (levelUpOnce cap g).player.next_xp =
          xp_threshold (levelUpOnce cap g).player.level := by
        rw [hN, hL]
      obtain ⟨k, k1, k2, k3, k4, k5, k6, k7, k8, k9⟩ := ih (levelUpOnce cap g) hfuel2 hinv2
      rw [hstep]
      refine ⟨k + 1, ?_, ?_, ?_, ?_, ?_, ?_, k7, ?_, ?_⟩
      · rw [k1, hL]; omega
      · rw [k2, hA]; push_cast; ring
      · rw [k3, hM]; push_cast; ring
      · rw [k4, hP, hL]
        have : evenGains g.player.level (k + 1) =
            (if (g.player.level + 1) % 2 = 0 then 1 else 0) +
              evenGains (g.player.level + 1) k := rfl
        rw [this]
        by_cases hpar : (g.player.level + 1) % 2 = 0 <;> push_cast [hpar] <;> ring
      · rw [k5]
      · have : thresholdSum g.player.level (k + 1) =
            xp_threshold g.player.level + thresholdSum (g.player.level + 1) k := rfl
        rw [this, ← hL]
        rw [hX] at k6
        omega
      · intro hhm
        have hb1 : g.player.hp ≤ (levelUpOnce cap g).player.hp := by
          rw [hH]; omega
        have hb2 : (levelUpOnce cap g).player.hp ≤ (levelUpOnce cap g).player.max_hp := by
          rw [hH, hM]; omega
        obtain ⟨hc1, hc2⟩ := k8 hb2
        exact ⟨le_trans hb1 hc1, hc2⟩
      · rw [k9, hPo]
    · have hstep : awardLoopF cap (f + 1) g = g := by
        simp only [awardLoopF]
        rw [if_neg hg]
      refine ⟨0, ?_⟩
      rw [hstep]
      simp [evenGains, thresholdSum, hinv]
      omega

/-- C1: `award_xp(g, amount)` adds `amount` to the XP and then performs one
level-up per threshold crossed, in sequence: for some number `k` of
level-ups, level rises by `k`, attack by `k`, max HP by `4k`, parry by one
per even new level, the threshold is re-derived from the final level, the
remaining XP is the awarded total minus the `k` consecutive thresholds spent
and lies below the new threshold, HP never decreases and stays capped, and
potions are untouched.  Requires the call-site invariant
`next_xp = xp_threshold level`, which holds at every call site. -/
theorem c1_award_xp (cap : Nat) (g : Game) (amount : Nat)
    (hinv : g.player.next_xp = xp_threshold g.player.level) :
    ∃ k : Nat,
      (award_xp cap g amount).player.level = g.player.level + k ∧
      (award_xp cap g amount).player.atk = g.player.atk + (k : Int) ∧
      (award_xp cap g amount).player.max_hp = g.player.max_hp + 4 * (k : Int) ∧
      (award_xp cap g amount).player.par =
        g.player.par + (evenGains g.player.level k : Int) ∧
      (award_xp cap g amount).player.next_xp =
        xp_threshold (award_xp cap g amount).player.level ∧
      (award_xp cap g amount).player.xp + thresholdSum g.player.level k =
        g.player.xp + amount ∧
      (award_xp cap g amount).player.xp < (award_xp cap g amount).player.next_xp ∧
      (g.player.hp ≤ g.player.max_hp →
        g.player.hp ≤ (award_xp cap g amount).player.hp ∧
        (award_xp cap g amount).player.hp ≤ (award_xp cap g amount).player.max_hp) ∧
      (award_xp cap g amount).player.potions = g.player.potions := by
  have h := awardLoopF_spec cap (g.player.xp + amount + 1)
    (push_log cap { g with player := { g.player with xp := g.player.xp + amount } }
      s!"You gain {amount} XP.")
    (show g.player.xp + amount < g.player.xp + amount + 1 by omega)
    (show g.player.next_xp = xp_threshold g.player.level from hinv)
  exact h

theorem c1_award_xp_witness :
    sampleGame.player.next_xp = xp_threshold sampleGame.player.level ∧
    ∃ k : Nat,
      (award_xp LOG_MAX_QT sampleGame 75).player.level =
        sampleGame.player.level + k ∧
      (award_xp LOG_MAX_QT sampleGame 75).player.atk =
        sampleGame.player.atk + (k : Int) ∧
      (award_xp LOG_MAX_QT sampleGame 75).player.max_hp =
        sampleGame.player.max_hp + 4 * (k : Int) ∧
      (award_xp LOG_MAX_QT sampleGame 75).player.par =
        sampleGame.player.par + (evenGains sampleGame.player.level k : Int) ∧
      (award_xp LOG_MAX_QT sampleGame 75).player.next_xp =
        xp_threshold (award_xp LOG_MAX_QT sampleGame 75).player.level ∧
      (award_xp LOG_MAX_QT sampleGame 75).player.xp +
          thresholdSum sampleGame.player.level k =
        sampleGame.player.xp + 75 ∧
      (award_xp LOG_MAX_QT sampleGame 75).player.xp <
        (award_xp LOG_MAX_QT sampleGame 75).player.next_xp ∧
      (sampleGame.player.hp ≤ sampleGame.player.max_hp →
        sampleGame.player.hp ≤ (award_xp LOG_MAX_QT sampleGame 75).player.hp ∧
        (award_xp LOG_MAX_QT sampleGame 75).player.hp ≤
          (award_xp LOG_MAX_QT sampleGame 75).player.max_hp) ∧
      (award_xp LOG_MAX_QT sampleGame 75).player.potions =
        sampleGame.player.potions :=
  ⟨by decide, c1_award_xp LOG_MAX_QT sampleGame 75 (by decide)⟩

/-- The claim's worked example: at level 1 with `next_xp = 30`, awarding 75
XP yields exactly two level-ups, attack +2, max HP +8, and remaining
`xp = 75 - 30 - 40 = 5` with the new threshold 50. -/
theorem award_xp_example_two_levelups :
    (award_xp LOG_MAX_QT sampleGame 75).player.level = 3 ∧
    (award_xp LOG_MAX_QT sampleGame 75).player.xp = 5 ∧
    (award_xp LOG_MAX_QT sampleGame 75).player.next_xp = 50 ∧
    (award_xp LOG_MAX_QT sampleGame 75).player.atk =
      sampleGame.player.atk + 2 ∧
    (award_xp LOG_MAX_QT sampleGame 75).player.max_hp =
      sampleGame.player.max_hp + 8 := by
  decide

-- C4 -----------------------------------------------------------------

/-- C4 (amended): once the game-over flag is set, move/attack, wait (the
`(0,0)` case of `action_or_move`), rest and quaff leave the entire game state
unchanged; the rotate keys are NOT gated on the flag (see the
counterexample). -/
theorem c4_gameover_noops (r : Rng) (g : Game) (dx dy : Int)
    (h : g.over = true) :
    action_or_move r g dx dy = (r, g) ∧
    on_rest r g = (r, g) ∧
    on_potion r g = (r, g) := by
  simp [action_or_move, on_rest, on_potion, h]

theorem c4_gameover_noops_witness :
    ({ sampleGame with over := true } : Game).over = true ∧
    (action_or_move zeroRng { sampleGame with over := true } 1 0 =
        (zeroRng, { sampleGame with over := true }) ∧
      on_rest zeroRng { sampleGame with over := true } =
        (zeroRng, { sampleGame with over := true }) ∧
      on_potion zeroRng { sampleGame with over := true } =
        (zeroRng, { sampleGame with over := true })) :=
  ⟨rfl, c4_gameover_noops zeroRng { sampleGame with over := true } 1 0 rfl⟩

/-- C4 counterexample: in the GameOver state, pressing the rotate key is not
a no-op — `keyPressEvent` dispatches Q/E to `rotate_player` before any
game-over check, so the facing angle changes. -/
theorem c4_rotate_in_gameover_counterexample :
    ({ sampleGame with over := true } : Game).over = true ∧
    (key_rotate_q { sampleGame with over := true }).player.angle ≠
      ({ sampleGame with over := true } : Game).player.angle := by
  constructor
  · rfl
  · show ((0 : ℚ) + (-15) / 180) - 2 * ⌊((0 : ℚ) + (-15) / 180) / 2⌋ ≠ (0 : ℚ)
    have h2 : ⌊((0 : ℚ) + (-15) / 180) / 2⌋ = -1 := by
      rw [Int.floor_eq_iff]
      norm_num
    rw [h2]
    norm_num

-- C2 -----------------------------------------------------------------

theorem anyOtherAt_eq_false {mobs : List Entity} {s i : Nat} {nx ny : Int}
    (h : anyOtherAt mobs s i nx ny = false) :
    ∀ j mj, mobs.get? j = some mj → mj.alive = true → mj.x = nx → mj.y = ny →
      s + j = i := by
  induction mobs generalizing s with
  | nil => intro j mj hj; simp at hj
  | cons o rest ih =>
    intro j mj hj ha hx hy
    simp only [anyOtherAt, Bool.or_eq_false_iff, Bool.and_eq_false_iff] at h
    obtain ⟨h1, h2⟩ := h
    cases j with
    | zero =>
      simp at hj
      subst hj
      rcases h1 with (((hA | hX) | hY) | hI)
      · rw [ha] at hA; cases hA
      · rw [decide_eq_false_iff_not] at hX; exact absurd hx hX
      · rw [decide_eq_false_iff_not] at hY; exact absurd hy hY
      · rw [decide_eq_false_iff_not, not_not] at hI; omega
    | succ j2 =>
      simp only [List.get?_cons_succ] at hj
      have := ih h2 j2 mj hj ha hx hy
      omega

theorem set_preserves_no_overlap {mobs : List Entity} {i : Nat} {m m' : Entity}
    (hm : mobs.get? i = some m)
    (hpos : ∀ t mt, t ≠ i → mobs.get? t = some mt → mt.alive = true →
      ¬(mt.x = m'.x ∧ mt.y = m'.y))
    (h : mobsNoOverlap mobs) :
    mobsNoOverlap (mobs.set i m') := by
  have hi : i < mobs.length := by
    by_contra hlen
    rw [List.get?_eq_none.mpr (by omega)] at hm
    cases hm
  intro j k mj mk hne hj hk haj hak
  by_cases hji : j = i
  · subst hji
    rw [List.get?_set_eq_of_lt _ hi] at hj
    rw [List.get?_set_ne _ _ (by omega)] at hk
    cases hj
    intro hc
    simp only [Prod.mk.injEq] at hc
    exact hpos k mk (by omega) hk hak ⟨hc.1.symm, hc.2.symm⟩
  · by_cases hki : k = i
    · subst hki
      rw [List.get?_set_eq_of_lt _ hi] at hk
      rw [List.get?_set_ne _ _ (by omega)] at hj
      cases hk
      intro hc
      simp only [Prod.mk.injEq] at hc
      exact hpos j mj (by omega) hj haj ⟨hc.1, hc.2⟩
    · rw [List.get?_set_ne _ _ (by omega)] at hj
      rw [List.get?_set_ne _ _ (by omega)] at hk
      exact h j k mj mk hne hj hk haj hak

/-- Any single guarded monster move preserves the invariant. -/
theorem stepTo_preserves_no_overlap (g : Game) (i : Nat) (m : Entity)
    (nx ny : Int) (hm : g.mobs.get? i = some m) (h : mobsNoOverlap g.mobs) :
    mobsNoOverlap (stepTo g i m nx ny).mobs := by
  unfold stepTo
  repeat' split
  any_goals exact h
  rename_i hocc
  refine set_preserves_no_overlap hm ?_ h
  intro t mt hti hgt hat hc
  have hocc2 : anyOtherAt g.mobs 0 i nx ny = false := by
    revert hocc
    cases anyOtherAt g.mobs 0 i nx ny <;> simp
  have := anyOtherAt_eq_false hocc2 t mt hgt hat hc.1 hc.2
  omega

/-- C2 (amended): monster movement preserves the no-duplicate-occupancy
invariant — `step_toward` never moves a monster onto a cell occupied by
another living monster.  (Spawning, by contrast, can violate the invariant:
see the counterexample.) -/
theorem c2_step_toward_preserves_no_overlap (g : Game) (i : Nat) (tx ty : Int)
    (h : mobsNoOverlap g.mobs) :
    mobsNoOverlap (step_toward g i tx ty).mobs := by
  unfold step_toward
  cases hm : g.mobs.get? i with
  | none => exact h
  | some m => exact stepTo_preserves_no_overlap g i m _ _ hm h

theorem c2_step_toward_preserves_no_overlap_witness :
    mobsNoOverlap sampleGameM.mobs ∧
    mobsNoOverlap (step_toward sampleGameM 0 5 5).mobs := by
  have hinv : mobsNoOverlap sampleGameM.mobs := by
    intro i j mi mj hne hi hj hai haj
    match i, j, hi, hj with
    | 0, 0, _, _ => exact absurd rfl hne
    | 1, 1, _, _ => exact absurd rfl hne
    | 0, 1, hi, hj => cases hi; cases hj; decide
    | 1, 0, hi, hj => cases hi; cases hj; decide
    | i + 2, _, hi, _ => exact Option.noConfusion hi
    | 0, j + 2, _, hj => exact Option.noConfusion hj
    | 1, j + 2, _, hj => exact Option.noConfusion hj
  exact ⟨hinv, c2_step_toward_preserves_no_overlap sampleGameM 0 5 5 hinv⟩

set_option maxHeartbeats 1000000 in
/-- C2 counterexample: a fresh game reachable by `new_floor(None)` under a
realisable draw sequence has two living goblins in slots 0 and 1 on the same
cell (3, 3) — `spawn_mobs_items` never tests monster occupancy, so duplicate
monster occupancy does occur. -/
theorem c2_spawn_duplicate_counterexample :
    (new_floor_none_qt c2seq).2.mobs.get? 0 = some (mkEnemy "goblin" 3 3) ∧
    (new_floor_none_qt c2seq).2.mobs.get? 1 = some (mkEnemy "goblin" 3 3) ∧
    (mkEnemy "goblin" 3 3).alive = true ∧
    ¬mobsNoOverlap (new_floor_none_qt c2seq).2.mobs := by
  refine ⟨by decide, by decide, rfl, ?_⟩
  intro h
  exact h 0 1 (mkEnemy "goblin" 3 3) (mkEnemy "goblin" 3 3) (by decide)
    (by decide) (by decide) rfl rfl rfl

-- C3 -----------------------------------------------------------------

theorem spawnItemsLoop_length (g : Grid) (st en : Int × Int) (attempts : Nat) :
    ∀ (n : Nat) (r : Rng) (items : List (Int × Int × String)),
      (spawnItemsLoop g st en attempts n r items).1.length ≤ items.length + n := by
  intro n
  induction n with
  | zero => intro r items; simp [spawnItemsLoop]
  | succ k ih =>
    intro r items
    unfold spawnItemsLoop
    cases placeLoop g st en attempts r with
    | mk oc r1 =>
      cases oc with
      | some c =>
        have := ih r1 (items ++ [(c.1, c.2, "potion")])
        simp at this ⊢
        omega
      | none =>
        have := ih r1 items
        simp at this ⊢
        omega

theorem spawnMobsLoop_length (g : Grid) (st en : Int × Int) (bag : List String)
    (attempts : Nat) :
    ∀ (n : Nat) (r : Rng) (mobs : List Entity),
      (spawnMobsLoop g st en bag attempts n r mobs).1.length ≤ mobs.length + n := by
  intro n
  induction n with
  | zero => intro r mobs; simp [spawnMobsLoop]
  | succ k ih =>
    intro r mobs
    unfold spawnMobsLoop
    cases placeLoop g st en attempts r with
    | mk oc r1 =>
      cases oc with
      | some c =>
        have := ih (rchoice r1 bag).2 (mobs ++ [mkEnemy (rchoice r1 bag).1 c.1 c.2])
        simp at this ⊢
        omega
      | none =>
        have := ih r1 mobs
        simp at this ⊢
        omega

/-- C3 (amended, Qt variant): `spawn_mobs_items` always terminates with at
most 7 item placements and 12 monster placements appended — each placement
retries at most 200 (items) / 300 (monsters) draws and is silently skipped
when the bound is exhausted, so fewer than 7 items or 12 monsters is a
possible, error-free outcome.  (The curses variant has no such bound: see
the counterexample.) -/
theorem c3_spawn_qt_bounded (r : Rng) (g : Game) :
    (spawn_mobs_items_qt r g).2.items.length ≤ g.items.length + 7 ∧
    (spawn_mobs_items_qt r g).2.mobs.length ≤ g.mobs.length + 12 := by
  unfold spawn_mobs_items_qt spawnWith
  constructor
  · exact spawnItemsLoop_length _ _ _ _ 7 r g.items
  · exact spawnMobsLoop_length _ _ _ _ _ 12 _ g.mobs

set_option maxHeartbeats 4000000 in
set_option maxRecDepth 100000 in
/-- C3 counterexample: on a stream whose first 200 cell draws for the first
item all land on a wall, the curses variant's `while True` placement loop
runs a 201st attempt and places the item (7 items in total, none skipped),
whereas the claimed at-most-200-attempts-then-skip behaviour (the Qt
variant's, and what the claim asserts of both variants) yields only 6. -/
theorem c3_curses_unbounded_counterexample :
    (spawn_mobs_items_curses 200 c3seq c3Game).2.items.length = 6 ∧
    (spawn_mobs_items_curses 201 c3seq c3Game).2.items.length = 7 ∧
    (spawn_mobs_items_qt c3seq c3Game).2.items.length = 6 := by
  refine ⟨by decide, by decide, by decide⟩

-- C8 -----------------------------------------------------------------

theorem spawnWith_length_bounds (ia ma : Nat) (r : Rng) (g : Game) :
    (spawnWith ia ma r g).2.items.length ≤ g.items.length + 7 ∧
    (spawnWith ia ma r g).2.mobs.length ≤ g.mobs.length + 12 := by
  unfold spawnWith
  constructor
  · exact spawnItemsLoop_length _ _ _ _ 7 r g.items
  · exact spawnMobsLoop_length _ _ _ _ _ 12 _ g.mobs

/-- `spawn_mobs_items` only rewrites the player's position, the stairs, and
the item/monster collections; every other component of the game state passes
through unchanged. -/
theorem spawnWith_fields (ia ma : Nat) (r : Rng) (g : Game) :
    (spawnWith ia ma r g).2.player.hp = g.player.hp ∧
    (spawnWith ia ma r g).2.player.level = g.player.level ∧
    (spawnWith ia ma r g).2.player.potions = g.player.potions ∧
    (spawnWith ia ma r g).2.player.xp = g.player.xp ∧
    (spawnWith ia ma r g).2.player.next_xp = g.player.next_xp ∧
    (spawnWith ia ma r g).2.player.angle = g.player.angle ∧
    (spawnWith ia ma r g).2.explored = g.explored ∧
    (spawnWith ia ma r g).2.depth = g.depth ∧
    (spawnWith ia ma r g).2.turn = g.turn ∧
    (spawnWith ia ma r g).2.grid = g.grid ∧
    (spawnWith ia ma r g).2.visible = g.visible ∧
    (spawnWith ia ma r g).2.over = g.over :=
  ⟨rfl, rfl, rfl, rfl, rfl, rfl, rfl, rfl, rfl, rfl, rfl, rfl⟩

theorem update_visibility_fields (g : Game) :
    (update_visibility g).player = g.player ∧
    (update_visibility g).depth = g.depth ∧
    (update_visibility g).turn = g.turn ∧
    (update_visibility g).mobs = g.mobs ∧
    (update_visibility g).items = g.items ∧
    (update_visibility g).visible = fovQt g.player.x g.player.y g.grid ∧
    (update_visibility g).explored =
      g.explored ∪ fovQt g.player.x g.player.y g.grid :=
  ⟨rfl, rfl, rfl, rfl, rfl, rfl, rfl⟩

/-- The curses variant's `new_floor(g)`: explored comes back empty, the
depth/turn counters and the player's hp/level/potions pass through, and the
rebuilt collections respect the spawn counts. -/
theorem new_floor_curses_fields (fuel : Nat) (r : Rng) (g : Game) :
    (new_floor_curses fuel r g).2.explored = ∅ ∧
    (new_floor_curses fuel r g).2.depth = g.depth ∧
    (new_floor_curses fuel r g).2.turn = g.turn ∧
    (new_floor_curses fuel r g).2.player.hp = g.player.hp ∧
    (new_floor_curses fuel r g).2.player.level = g.player.level ∧
    (new_floor_curses fuel r g).2.player.potions = g.player.potions ∧
    (new_floor_curses fuel r g).2.mobs.length ≤ 12 ∧
    (new_floor_curses fuel r g).2.items.length ≤ 7 := by
  obtain ⟨s1, s2, s3, s4, s5, s6, s7, s8, s9, s10, s11, s12⟩ :=
    spawnWith_fields fuel fuel (make_map r).1
      { g with grid := (make_map r).2.1, rooms := (make_map r).2.2,
               mobs := [], items := [], explored := ∅ }
  obtain ⟨l1, l2⟩ :=
    spawnWith_length_bounds fuel fuel (make_map r).1
      { g with grid := (make_map r).2.1, rooms := (make_map r).2.2,
               mobs := [], items := [], explored := ∅ }
  exact ⟨s7, s8, s9, s1, s2, s3, by simpa using l2, by simpa using l1⟩

theorem uv_after_angle_restore (sp : Game) (a : ℚ) (h : sp.explored = ∅) :
    (update_visibility { sp with player := { sp.player with angle := a } }).depth = sp.depth ∧
    (update_visibility { sp with player := { sp.player with angle := a } }).turn = sp.turn ∧
    (update_visibility { sp with player := { sp.player with angle := a } }).player.hp = sp.player.hp ∧
    (update_visibility { sp with player := { sp.player with angle := a } }).player.level = sp.player.level ∧
    (update_visibility { sp with player := { sp.player with angle := a } }).player.potions = sp.player.potions ∧
    (update_visibility { sp with player := { sp.player with angle := a } }).explored =
      (update_visibility { sp with player := { sp.player with angle := a } }).visible ∧
    ((update_visibility { sp with player := { sp.player with angle := a } }).player.x,
      (update_visibility { sp with player := { sp.player with angle := a } }).player.y) ∈
      (update_visibility { sp with player := { sp.player with angle := a } }).explored ∧
    (update_visibility { sp with player := { sp.player with angle := a } }).mobs.length = sp.mobs.length ∧
    (update_visibility { sp with player := { sp.player with angle := a } }).items.length = sp.items.length := by
  refine ⟨rfl, rfl, rfl, rfl, rfl, ?_, ?_, rfl, rfl⟩
  · simp only [update_visibility]
    rw [h, Finset.empty_union]
  · simp only [update_visibility]
    rw [h, Finset.empty_union]
    exact Finset.mem_insert_self _ _

/-- The Qt variant's `new_floor(g)`: depth/turn and the player's
hp/level/potions pass through, the rebuilt collections respect the spawn
counts, and — because `update_visibility` runs as its last step — the
explored set equals the freshly computed visible set and already contains
the player's new cell (so it is NOT empty). -/
theorem new_floor_qt_fields (r : Rng) (g : Game) :
    (new_floor_qt r g).2.depth = g.depth ∧
    (new_floor_qt r g).2.turn = g.turn ∧
    (new_floor_qt r g).2.player.hp = g.player.hp ∧
    (new_floor_qt r g).2.player.level = g.player.level ∧
    (new_floor_qt r g).2.player.potions = g.player.potions ∧
    (new_floor_qt r g).2.explored = (new_floor_qt r g).2.visible ∧
    ((new_floor_qt r g).2.player.x, (new_floor_qt r g).2.player.y) ∈
      (new_floor_qt r g).2.explored ∧
    (new_floor_qt r g).2.mobs.length ≤ 12 ∧
    (new_floor_qt r g).2.items.length ≤ 7 := by
  obtain ⟨s1, s2, s3, s4, s5, s6, s7, s8, s9, s10, s11, s12⟩ :=
    spawnWith_fields 200 300 (make_map r).1
      { g with grid := (make_map r).2.1, rooms := (make_map r).2.2,
               mobs := [], items := [], explored := ∅, visible := ∅ }
  obtain ⟨l1, l2⟩ :=
    spawnWith_length_bounds 200 300 (make_map r).1
      { g with grid := (make_map r).2.1, rooms := (make_map r).2.2,
               mobs := [], items := [], explored := ∅, visible := ∅ }
  obtain ⟨u1, u2, u3, u4, u5, u6, u7, u8, u9⟩ :=
    uv_after_angle_restore
      (spawn_mobs_items_qt (make_map r).1
        { g with grid := (make_map r).2.1, rooms := (make_map r).2.2,
                 mobs := [], items := [], explored := ∅, visible := ∅ }).2
      g.player.angle s7
  exact ⟨u1.trans s8, u2.trans s9, u3.trans s1, u4.trans s2, u5.trans s3,
    u6, u7, le_trans (le_of_eq u8) (by simpa using l2),
    le_trans (le_of_eq u9) (by simpa using l1)⟩

/-- Stepping onto the stairs cell (destination not a wall, no living monster
and no potion there): `try_move_player`'s shared body moves the player,
increments depth and turn, logs, and hands the state to `new_floor`. -/
theorem tryMoveBody_stairs (cap : Nat) (descend : Rng → Game → Rng × Game)
    (r : Rng) (g : Game) (dx dy : Int)
    (hwall : ¬cellAt g.grid (max 0 (min (MAP_W - 1) (g.player.x + dx)))
        (max 0 (min (MAP_H - 1) (g.player.y + dy))) = WALL)
    (hmob : findAliveAt g.mobs 0 (max 0 (min (MAP_W - 1) (g.player.x + dx)))
        (max 0 (min (MAP_H - 1) (g.player.y + dy))) = none)
    (hitem : pickupIdx g.items 0 (max 0 (min (MAP_W - 1) (g.player.x + dx)))
        (max 0 (min (MAP_H - 1) (g.player.y + dy))) = none)
    (hstairs : ((max 0 (min (MAP_W - 1) (g.player.x + dx)),
        max 0 (min (MAP_H - 1) (g.player.y + dy))) : Int × Int) = g.stairs) :
    ∃ g3 : Game,
      tryMoveBody cap descend r g dx dy = descend r g3 ∧
      g3.depth = g.depth + 1 ∧
      g3.turn = g.turn + 1 ∧
      g3.player.hp = g.player.hp ∧
      g3.player.level = g.player.level ∧
      g3.player.potions = g.player.potions := by
  refine ⟨push_log cap
      { g with
        player := { g.player with
          x := max 0 (min (MAP_W - 1) (g.player.x + dx)),
          y := max 0 (min (MAP_H - 1) (g.player.y + dy)) },
        depth := g.depth + 1, turn := g.turn + 1 }
      ("You descend to Depth " ++ toString (g.depth + 1) ++ "."),
    ?_, rfl, rfl, rfl, rfl, rfl⟩
  simp only [tryMoveBody, hmob, hitem, if_neg hwall, hstairs, if_pos]

/-- C8 (amended): when the player steps onto the stairs cell (no monster or
potion there), the floor transition increments depth by exactly 1 and
increments the turn, respawns the monster and item collections from empty
(at most 12 monsters and 7 items), and leaves the player's hp, level and
potion count unchanged.  In the curses variant the explored set is left
empty; in the Qt variant the transition resets explored/visible and then
immediately recomputes visibility, so afterwards explored equals the new
floor's visible set and already contains the player's new cell. -/
theorem c8_stairs_floor_transition (fuel : Nat) (r : Rng) (g : Game)
    (dx dy : Int)
    (hwall : ¬cellAt g.grid (max 0 (min (MAP_W - 1) (g.player.x + dx)))
        (max 0 (min (MAP_H - 1) (g.player.y + dy))) = WALL)
    (hmob : findAliveAt g.mobs 0 (max 0 (min (MAP_W - 1) (g.player.x + dx)))
        (max 0 (min (MAP_H - 1) (g.player.y + dy))) = none)
    (hitem : pickupIdx g.items 0 (max 0 (min (MAP_W - 1) (g.player.x + dx)))
        (max 0 (min (MAP_H - 1) (g.player.y + dy))) = none)
    (hstairs : ((max 0 (min (MAP_W - 1) (g.player.x + dx)),
        max 0 (min (MAP_H - 1) (g.player.y + dy))) : Int × Int) = g.stairs) :
    ((try_move_player_curses fuel r g dx dy).2.depth = g.depth + 1 ∧
     (try_move_player_curses fuel r g dx dy).2.turn = g.turn + 1 ∧
     (try_move_player_curses fuel r g dx dy).2.explored = ∅ ∧
     (try_move_player_curses fuel r g dx dy).2.player.hp = g.player.hp ∧
     (try_move_player_curses fuel r g dx dy).2.player.level = g.player.level ∧
     (try_move_player_curses fuel r g dx dy).2.player.potions = g.player.potions ∧
     (try_move_player_curses fuel r g dx dy).2.mobs.length ≤ 12 ∧
     (try_move_player_curses fuel r g dx dy).2.items.length ≤ 7) ∧
    ((try_move_player_qt r g dx dy).2.depth = g.depth + 1 ∧
     (try_move_player_qt r g dx dy).2.turn = g.turn + 1 ∧
     (try_move_player_qt r g dx dy).2.player.hp = g.player.hp ∧
     (try_move_player_qt r g dx dy).2.player.level = g.player.level ∧
     (try_move_player_qt r g dx dy).2.player.potions = g.player.potions ∧
     (try_move_player_qt r g dx dy).2.explored = (try_move_player_qt r g dx dy).2.visible ∧
     ((try_move_player_qt r g dx dy).2.player.x, (try_move_player_qt r g dx dy).2.player.y) ∈
       (try_move_player_qt r g dx dy).2.explored ∧
     (try_move_player_qt r g dx dy).2.mobs.length ≤ 12 ∧
     (try_move_player_qt r g dx dy).2.items.length ≤ 7) := by
  constructor
  · obtain ⟨g3, heq, hd, ht, hh, hl, hp⟩ :=
      tryMoveBody_stairs LOG_MAX_CURSES (new_floor_curses fuel) r g dx dy
        hwall hmob hitem hstairs
    have hout : try_move_player_curses fuel r g dx dy = new_floor_curses fuel r g3 := heq
    obtain ⟨n1, n2, n3, n4, n5, n6, n7, n8⟩ := new_floor_curses_fields fuel r g3
    rw [hout]
    exact ⟨n2.trans hd, n3.trans ht, n1, n4.trans hh, n5.trans hl, n6.trans hp, n7, n8⟩
  · by_cases hang : dx ≠ 0 ∨ dy ≠ 0
    · obtain ⟨g3, heq, hd, ht, hh, hl, hp⟩ :=
        tryMoveBody_stairs LOG_MAX_QT new_floor_qt r
          { g with player := { g.player with angle := atan2PiUnits dy dx } } dx dy
          hwall hmob hitem hstairs
      have hout : try_move_player_qt r g dx dy = new_floor_qt r g3 := by
        show tryMoveBody LOG_MAX_QT new_floor_qt r
            (if dx ≠ 0 ∨ dy ≠ 0 then
              { g with player := { g.player with angle := atan2PiUnits dy dx } }
             else g) dx dy = new_floor_qt r g3
        rw [if_pos hang]
        exact heq
      obtain ⟨n1, n2, n3, n4, n5, n6, n7, n8, n9⟩ := new_floor_qt_fields r g3
      rw [hout]
      exact ⟨n1.trans hd, n2.trans ht, n3.trans hh, n4.trans hl, n5.trans hp,
        n6, n7, n8, n9⟩
    · obtain ⟨g3, heq, hd, ht, hh, hl, hp⟩ :=
        tryMoveBody_stairs LOG_MAX_QT new_floor_qt r g dx dy
          hwall hmob hitem hstairs
      have hout : try_move_player_qt r g dx dy = new_floor_qt r g3 := by
        show tryMoveBody LOG_MAX_QT new_floor_qt r
            (if dx ≠ 0 ∨ dy ≠ 0 then
              { g with player := { g.player with angle := atan2PiUnits dy dx } }
             else g) dx dy = new_floor_qt r g3
        rw [if_neg hang]
        exact heq
      obtain ⟨n1, n2, n3, n4, n5, n6, n7, n8, n9⟩ := new_floor_qt_fields r g3
      rw [hout]
      exact ⟨n1.trans hd, n2.trans ht, n3.trans hh, n4.trans hl, n5.trans hp,
        n6, n7, n8, n9⟩

theorem c8_stairs_floor_transition_witness :
    (¬cellAt c8Game.grid (max 0 (min (MAP_W - 1) (c8Game.player.x + 1)))
        (max 0 (min (MAP_H - 1) (c8Game.player.y + 0))) = WALL) ∧
    (((try_move_player_curses 0 zeroRng c8Game 1 0).2.depth = c8Game.depth + 1 ∧
      (try_move_player_curses 0 zeroRng c8Game 1 0).2.turn = c8Game.turn + 1 ∧
      (try_move_player_curses 0 zeroRng c8Game 1 0).2.explored = ∅ ∧
      (try_move_player_curses 0 zeroRng c8Game 1 0).2.player.hp = c8Game.player.hp ∧
      (try_move_player_curses 0 zeroRng c8Game 1 0).2.player.level = c8Game.player.level ∧
      (try_move_player_curses 0 zeroRng c8Game 1 0).2.player.potions = c8Game.player.potions ∧
      (try_move_player_curses 0 zeroRng c8Game 1 0).2.mobs.length ≤ 12 ∧
      (try_move_player_curses 0 zeroRng c8Game 1 0).2.items.length ≤ 7) ∧
     ((try_move_player_qt zeroRng c8Game 1 0).2.depth = c8Game.depth + 1 ∧
      (try_move_player_qt zeroRng c8Game 1 0).2.turn = c8Game.turn + 1 ∧
      (try_move_player_qt zeroRng c8Game 1 0).2.player.hp = c8Game.player.hp ∧
      (try_move_player_qt zeroRng c8Game 1 0).2.player.level = c8Game.player.level ∧
      (try_move_player_qt zeroRng c8Game 1 0).2.player.potions = c8Game.player.potions ∧
      (try_move_player_qt zeroRng c8Game 1 0).2.explored =
        (try_move_player_qt zeroRng c8Game 1 0).2.visible ∧
      ((try_move_player_qt zeroRng c8Game 1 0).2.player.x,
        (try_move_player_qt zeroRng c8Game 1 0).2.player.y) ∈
        (try_move_player_qt zeroRng c8Game 1 0).2.explored ∧
      (try_move_player_qt zeroRng c8Game 1 0).2.mobs.length ≤ 12 ∧
      (try_move_player_qt zeroRng c8Game 1 0).2.items.length ≤ 7)) :=
  ⟨by decide,
    c8_stairs_floor_transition 0 zeroRng c8Game 1 0 (by decide) (by decide)
      (by decide) (by decide)⟩

/-- C8 counterexample: in the Qt variant the explored set is NOT empty after
the floor transition — `new_floor` ends with `update_visibility`, which
repopulates it with the new floor's field of view (containing the player's
new cell), so the claim's "explored set is reset to empty" fails as a
post-state description of the Qt transition. -/
theorem c8_qt_explored_nonempty_counterexample :
    (try_move_player_qt zeroRng c8Game 1 0).2.depth = c8Game.depth + 1 ∧
    (try_move_player_qt zeroRng c8Game 1 0).2.explored ≠ ∅ := by
  obtain ⟨g3, heq, hd, ht, hh, hl, hp⟩ :=
    tryMoveBody_stairs LOG_MAX_QT new_floor_qt zeroRng
      { c8Game with player := { c8Game.player with angle := atan2PiUnits 0 1 } }
      1 0 (by decide) (by decide) (by decide) (by decide)
  have hout : try_move_player_qt zeroRng c8Game 1 0 = new_floor_qt zeroRng g3 := by
    show tryMoveBody LOG_MAX_QT new_floor_qt zeroRng
        (if (1 : Int) ≠ 0 ∨ (0 : Int) ≠ 0 then
          { c8Game with player := { c8Game.player with angle := atan2PiUnits 0 1 } }
         else c8Game) 1 0 = new_floor_qt zeroRng g3
    rw [if_pos (by norm_num)]
    exact heq
  obtain ⟨n1, n2, n3, n4, n5, n6, n7, n8, n9⟩ := new_floor_qt_fields zeroRng g3
  constructor
  · rw [hout]
    exact n1.trans hd
  · rw [hout]
    intro hemp
    rw [hemp] at n7
    exact absurd n7 (Finset.not_mem_empty _)
